import Mathlib

/-!
Shallow embedding of the retrieval-and-reranking pipeline of `rag_wpp`
(`src/retrieval/retrieval_workflow.py` and `src/retrieval/main_workflow.py`).

Floating point scores are modelled as rationals; the external collaborators
(vector store, BM25 retriever, cross-encoder, LLM calls) are passed in as
explicit data or functions, exactly at the boundary where the Python code
calls them.
-/

namespace RagWpp

/-- Configuration constant from retrieval_workflow.py: docs fetched per method. -/
def NR_RETRIEVED_DOCS : ℕ := 25

/-- Configuration constant from retrieval_workflow.py: docs kept after reranking. -/
def NR_FINAL_DOCS : ℕ := 5

/-- The epsilon added to the min-max denominator in merge_and_rerank_node. -/
def eps : ℚ := 1 / 1000000

/-- A langchain Document as the pipeline builds it: page content plus the
metadata keys that the retrieval nodes read and write.  `base_meta` stands for
the metadata inherited from the chroma record; `crossencoder_score` is the
metadata key written by the merge node, absent (`none`) until then. -/
structure Doc where
  page_content : String
  base_meta : List (String × String)
  vector_score : ℚ
  bm25_score : ℚ
  colbert_score : ℚ
  context_score : ℚ
  retrieval_method : String
  crossencoder_score : Option ℚ
deriving DecidableEq, Repr

/-- The result of `collection.query` consumed by semantic_search_node:
parallel lists of chunk texts, metadata records and distances. -/
structure ChromaQueryResult where
  documents : List String
  metadatas : List (List (String × String))
  distances : List ℚ
deriving DecidableEq, Repr

/-- semantic_search_node: converts each chroma hit (text, metadata, distance)
into a Document with `vector_score = max 0 (1 - dist)`, zeroed scores for the
other methods, and retrieval method tag "vector". -/
def semantic_search_node (results : ChromaQueryResult) : List Doc :=
  (results.documents.zip (results.metadatas.zip results.distances)).map
    fun p =>
      { page_content := p.1
        base_meta := p.2.1
        vector_score := max 0 (1 - p.2.2)
        bm25_score := 0
        colbert_score := 0
        context_score := 0
        retrieval_method := "vector"
        crossencoder_score := none }

/-- The scoring loop of bm25_search_node: the result at 0-indexed rank `i`
out of `m` results gets `bm25_score = 1 - i / m`, zeroed scores for the other
methods, and retrieval method tag "bm25" (the lexical method's tag). -/
def bm25_scoring (results : List (String × List (String × String))) : List Doc :=
  results.enum.map fun p =>
    { page_content := p.2.1
      base_meta := p.2.2
      vector_score := 0
      bm25_score := 1 - (p.1 : ℚ) / results.length
      colbert_score := 0
      context_score := 0
      retrieval_method := "bm25"
      crossencoder_score := none }

/-- bm25_search_node: the whole lexical search is wrapped in try/except; on
success the ranked results are scored by rank decay, on any internal error the
node stores the empty list instead of propagating. -/
def bm25_search_node
    (search : Except String (List (String × List (String × String)))) : List Doc :=
  match search with
  | .ok results => bm25_scoring results
  | .error _ => []

/-- Least element of a nonempty score batch (numpy `scores.min()`); 0 on the
empty batch, on which the code never calls it. -/
def npMin : List ℚ → ℚ
  | [] => 0
  | [x] => x
  | x :: y :: xs => min x (npMin (y :: xs))

/-- Greatest element of a nonempty score batch (numpy `scores.max()`). -/
def npMax : List ℚ → ℚ
  | [] => 0
  | [x] => x
  | x :: y :: xs => max x (npMax (y :: xs))

/-- The min-max normalization of merge_and_rerank_node: if max > min each
score s becomes (s - min) / (max - min + 1e-6), otherwise every score becomes
0.5. -/
def normalizedScores (scores : List ℚ) : List ℚ :=
  if npMin scores < npMax scores then
    scores.map fun s => (s - npMin scores) / (npMax scores - npMin scores + eps)
  else
    scores.map fun _ => (1 : ℚ) / 2

/-- The (query, page_content) pairs handed to `reranker.predict`. -/
def rerankPairs (query : String) (docs : List Doc) : List (String × String) :=
  docs.map fun d => (query, d.page_content)

/-- The metadata write-back loop: stores each normalized score into the
matching document's `crossencoder_score` metadata key. -/
def annotateDocs (docs : List Doc) (ns : List ℚ) : List Doc :=
  (docs.zip ns).map fun p => { p.1 with crossencoder_score := some p.2 }

/-- The sort key relation of `sorted(zip(scores, all_docs), key score,
reverse=True)`: pair a precedes pair b when a's raw score is at least b's. -/
def rawDesc (a b : ℚ × Doc) : Prop := b.1 ≤ a.1

instance : DecidableRel rawDesc := fun a b => inferInstanceAs (Decidable (b.1 ≤ a.1))

instance : IsTotal (ℚ × Doc) rawDesc :=
  ⟨fun a b => (le_total b.1 a.1).imp id id⟩

instance : IsTrans (ℚ × Doc) rawDesc :=
  ⟨fun _ _ _ hab hbc => le_trans hbc hab⟩

/-- Python's `sorted(..., key=lambda x: x[0], reverse=True)` is a stable sort
descending on the score component, embedded as stable insertion sort. -/
def sortByRawScore (pairs : List (ℚ × Doc)) : List (ℚ × Doc) :=
  List.insertionSort rawDesc pairs

/-- The observable outcome of merge_and_rerank_node: the returned top
documents, the state of the full candidate batch after the metadata writes
(the Python loop mutates the shared Document objects of the whole batch), and
how many times `reranker.predict` was called. -/
structure MergeResult where
  retrieved_documents : List Doc
  annotated_all : List Doc
  reranker_calls : ℕ
deriving DecidableEq, Repr

/-- merge_and_rerank_node: concatenate the two candidate lists; on the empty
batch return immediately; otherwise call the reranker once, normalize, write
the normalized scores into every candidate's metadata, stable-sort by raw
score descending and keep the first NR_FINAL_DOCS. -/
def merge_and_rerank_node (query : String) (semantic_docs bm25_docs : List Doc)
    (reranker : List (String × String) → List ℚ) : MergeResult :=
  let all_docs := semantic_docs ++ bm25_docs
  if all_docs = [] then
    { retrieved_documents := [], annotated_all := [], reranker_calls := 0 }
  else
    let scores := reranker (rerankPairs query all_docs)
    let annotated := annotateDocs all_docs (normalizedScores scores)
    let sortedPairs := sortByRawScore (scores.zip annotated)
    { retrieved_documents := (sortedPairs.map Prod.snd).take NR_FINAL_DOCS
      annotated_all := annotated
      reranker_calls := 1 }

/-- The raw reranker scores of the merge node's nonempty branch, as the code
computes them: `reranker.predict` on the (query, text) pairs of the
concatenated batch. -/
def mergeScores (query : String) (semantic_docs bm25_docs : List Doc)
    (reranker : List (String × String) → List ℚ) : List ℚ :=
  reranker (rerankPairs query (semantic_docs ++ bm25_docs))

/-- The (raw score, mutated document) pairs the merge node sorts. -/
def mergePairs (query : String) (semantic_docs bm25_docs : List Doc)
    (reranker : List (String × String) → List ℚ) : List (ℚ × Doc) :=
  (mergeScores query semantic_docs bm25_docs reranker).zip
    (annotateDocs (semantic_docs ++ bm25_docs)
      (normalizedScores (mergeScores query semantic_docs bm25_docs reranker)))

/-- Erases the merge node's metadata write from a document, for relating a
mutated candidate back to the candidate the adapters produced. -/
def eraseCE (d : Doc) : Doc :=
  { d with crossencoder_score := none }

/-! Main workflow (`src/retrieval/main_workflow.py`). -/

/-- The state threaded through the main graph; `query_type` is absent until
triage_node writes it (InputState is a TypedDict with total=False). -/
structure MainState where
  query : String
  query_type : Option String
deriving DecidableEq, Repr

/-- triage_node: stores the triage collaborator's output label in the state
unchanged (no coercion or validation). -/
def triage_node (triage_result : String) (state : MainState) : MainState :=
  { state with query_type := some triage_result }

/-- The canned reply of out_of_scope_node. -/
def out_of_scope_answer : String := "Your query is out of scope."

/-- The two branch targets of the conditional edge after triage. -/
inductive Branch where
  | out_of_scope
  | retrieval
deriving DecidableEq, Repr

/-- The conditional edge after triage: the routing lambda returns
`state.query_type`, looked up in the mapping with exactly the two keys
OUT_OF_SCOPE and DATA_QUESTION; any other label matches no edge (the graph
run fails rather than defaulting to either branch). -/
def routeAfterTriage (query_type : String) : Option Branch :=
  if query_type = "OUT_OF_SCOPE" then some Branch.out_of_scope
  else if query_type = "DATA_QUESTION" then some Branch.retrieval
  else none

/-- generate_answer_node: joins the retrieved documents' texts with blank
lines and hands query and context to the answer collaborator. -/
def generate_answer_node (answer_llm : String → String → String)
    (query : String) (retrieved_documents : List Doc) : String :=
  answer_llm query
    (String.intercalate "\n\n" (retrieved_documents.map Doc.page_content))

/-- The observable outcome of one main-workflow run: the final answer, whether
the retrieval subgraph (vector and lexical search) ran, and how many times the
reranker was called. -/
structure RunResult where
  answer : String
  retrieval_invoked : Bool
  reranker_calls : ℕ
deriving DecidableEq, Repr

/-- One run of the compiled main graph: triage stores the collaborator's
label, the conditional edge branches on it, the out-of-scope branch returns
the canned answer without touching retrieval, the retrieval branch runs the
retrieval subgraph (semantic then bm25 then merge) and then answer
generation.  An unmatched label is a graph-execution error. -/
def run_main_workflow (query : String) (triage_result : String)
    (vector_results : ChromaQueryResult)
    (bm25_search : Except String (List (String × List (String × String))))
    (reranker : List (String × String) → List ℚ)
    (answer_llm : String → String → String) : Except String RunResult :=
  let st := triage_node triage_result { query := query, query_type := none }
  match st.query_type with
  | none => .error "query_type missing"
  | some label =>
    match routeAfterTriage label with
    | some Branch.out_of_scope =>
        .ok { answer := out_of_scope_answer
              retrieval_invoked := false
              reranker_calls := 0 }
    | some Branch.retrieval =>
        let semantic_docs := semantic_search_node vector_results
        let bm25_docs := bm25_search_node bm25_search
        let merged := merge_and_rerank_node query semantic_docs bm25_docs reranker
        .ok { answer := generate_answer_node answer_llm query merged.retrieved_documents
              retrieval_invoked := true
              reranker_calls := merged.reranker_calls }
    | none => .error ("unrecognized query_type: " ++ label)

/-! Concrete data used to evaluate the development on closed inputs. -/

/-- A concrete vector-produced candidate. -/
def docA : Doc :=
  { page_content := "alpha"
    base_meta := [("source", "r"), ("chunk_index", "0")]
    vector_score := 9 / 10
    bm25_score := 0
    colbert_score := 0
    context_score := 0
    retrieval_method := "vector"
    crossencoder_score := none }

/-- A concrete lexically-produced candidate. -/
def docB : Doc :=
  { page_content := "beta"
    base_meta := [("source", "r"), ("chunk_index", "1")]
    vector_score := 0
    bm25_score := 1
    colbert_score := 0
    context_score := 0
    retrieval_method := "bm25"
    crossencoder_score := none }

/-- A reranker stub that scores the i-th pair with the rational i. -/
def rampReranker : List (String × String) → List ℚ :=
  fun ps => (List.range ps.length).map fun i => (i : ℚ)

/-- A reranker stub whose two scores are 0 and 1e-6: the raw score spread of
the batch equals the normalization epsilon. -/
def tinySpreadReranker : List (String × String) → List ℚ :=
  fun ps => if ps.length = 2 then [0, 1 / 1000000] else []

/-! Helper lemmas. -/

theorem eps_pos : 0 < eps := by norm_num [eps]

theorem le_npMax : ∀ (l : List ℚ), ∀ s ∈ l, s ≤ npMax l
  | [], s, hs => absurd hs (List.not_mem_nil s)
  | [x], s, hs => by
      rcases List.mem_singleton.mp hs with rfl
      exact le_rfl
  | x :: y :: xs, s, hs => by
      rcases List.mem_cons.mp hs with rfl | h
      · exact le_max_left s (npMax (y :: xs))
      · exact le_trans (le_npMax (y :: xs) s h) (le_max_right x (npMax (y :: xs)))

theorem npMin_le : ∀ (l : List ℚ), ∀ s ∈ l, npMin l ≤ s
  | [], s, hs => absurd hs (List.not_mem_nil s)
  | [x], s, hs => by
      rcases List.mem_singleton.mp hs with rfl
      exact le_rfl
  | x :: y :: xs, s, hs => by
      rcases List.mem_cons.mp hs with rfl | h
      · exact min_le_left s (npMin (y :: xs))
      · exact le_trans (min_le_right x (npMin (y :: xs))) (npMin_le (y :: xs) s h)

theorem npMax_mem : ∀ (l : List ℚ), l ≠ [] → npMax l ∈ l
  | [], h => absurd rfl h
  | [x], _ => List.mem_singleton_self x
  | x :: y :: xs, _ => by
      show max x (npMax (y :: xs)) ∈ x :: y :: xs
      rcases le_total x (npMax (y :: xs)) with h | h
      · rw [max_eq_right h]
        exact List.mem_cons_of_mem x (npMax_mem (y :: xs) (by simp))
      · rw [max_eq_left h]
        exact List.mem_cons_self x (y :: xs)

theorem npMin_mem : ∀ (l : List ℚ), l ≠ [] → npMin l ∈ l
  | [], h => absurd rfl h
  | [x], _ => List.mem_singleton_self x
  | x :: y :: xs, _ => by
      show min x (npMin (y :: xs)) ∈ x :: y :: xs
      rcases le_total x (npMin (y :: xs)) with h | h
      · rw [min_eq_left h]
        exact List.mem_cons_self x (y :: xs)
      · rw [min_eq_right h]
        exact List.mem_cons_of_mem x (npMin_mem (y :: xs) (by simp))

theorem normalizedScores_length (scores : List ℚ) :
    (normalizedScores scores).length = scores.length := by
  unfold normalizedScores
  split <;> simp

theorem normalizedScores_bounds (scores : List ℚ) :
    ∀ q ∈ normalizedScores scores, 0 ≤ q ∧ q ≤ 1 := by
  intro q hq
  unfold normalizedScores at hq
  split at hq
  · next hlt =>
    rcases List.mem_map.mp hq with ⟨s, hs, rfl⟩
    have h1 : npMin scores ≤ s := npMin_le scores s hs
    have h2 : s ≤ npMax scores := le_npMax scores s hs
    have hden : 0 < npMax scores - npMin scores + eps := by
      have := eps_pos
      linarith
    refine ⟨div_nonneg (by linarith) hden.le, ?_⟩
    rw [div_le_one hden]
    have := eps_pos
    linarith
  · rcases List.mem_map.mp hq with ⟨s, hs, rfl⟩
    norm_num

theorem normalizedScores_of_all_eq (scores : List ℚ)
    (h : ∀ s ∈ scores, ∀ t ∈ scores, s = t) :
    normalizedScores scores = scores.map fun _ => (1 : ℚ) / 2 := by
  unfold normalizedScores
  rw [if_neg]
  intro hlt
  rcases scores with _ | ⟨a, as⟩
  · simp [npMin, npMax] at hlt
  · exact absurd (h (npMin (a :: as)) (npMin_mem (a :: as) (by simp))
      (npMax (a :: as)) (npMax_mem (a :: as) (by simp))) (ne_of_lt hlt)

theorem annotateDocs_length (docs : List Doc) (ns : List ℚ) :
    (annotateDocs docs ns).length = min docs.length ns.length := by
  simp [annotateDocs]

theorem mem_annotateDocs (docs : List Doc) (ns : List ℚ) (d : Doc)
    (hd : d ∈ annotateDocs docs ns) :
    ∃ x ∈ docs, ∃ q ∈ ns, d = { x with crossencoder_score := some q } := by
  rcases List.mem_map.mp hd with ⟨p, hp, rfl⟩
  exact ⟨p.1, (List.of_mem_zip hp).1, p.2, (List.of_mem_zip hp).2, rfl⟩

theorem merge_of_ne (query : String) (sdocs bdocs : List Doc)
    (reranker : List (String × String) → List ℚ) (hne : sdocs ++ bdocs ≠ []) :
    merge_and_rerank_node query sdocs bdocs reranker =
      { retrieved_documents :=
          ((sortByRawScore (mergePairs query sdocs bdocs reranker)).map Prod.snd).take
            NR_FINAL_DOCS
        annotated_all :=
          annotateDocs (sdocs ++ bdocs)
            (normalizedScores (mergeScores query sdocs bdocs reranker))
        reranker_calls := 1 } := by
  simp only [merge_and_rerank_node, mergeScores, mergePairs, if_neg hne]

theorem filter_score_orderedInsert (c : ℚ) (x : ℚ × Doc) :
    ∀ l : List (ℚ × Doc),
      (List.orderedInsert rawDesc x l).filter (fun p => decide (p.1 = c)) =
        if x.1 = c then x :: l.filter (fun p => decide (p.1 = c))
        else l.filter (fun p => decide (p.1 = c))
  | [] => by
      by_cases hx : x.1 = c <;> simp [List.orderedInsert, List.filter, hx]
  | y :: l => by
      simp only [List.orderedInsert]
      by_cases hr : rawDesc x y
      · rw [if_pos hr]
        by_cases hx : x.1 = c <;> simp [List.filter_cons, hx]
      · rw [if_neg hr]
        have hyx : x.1 < y.1 := lt_of_not_le hr
        by_cases hx : x.1 = c
        · have hy : y.1 ≠ c := by
            rw [← hx]
            exact ne_of_gt hyx
          simp [List.filter_cons, hy, filter_score_orderedInsert c x l, hx]
        · by_cases hy : y.1 = c <;>
            simp [List.filter_cons, hy, filter_score_orderedInsert c x l, hx]

theorem filter_sortByRawScore (c : ℚ) :
    ∀ l : List (ℚ × Doc),
      (sortByRawScore l).filter (fun p => decide (p.1 = c)) =
        l.filter (fun p => decide (p.1 = c))
  | [] => rfl
  | x :: l => by
      show (List.orderedInsert rawDesc x (List.insertionSort rawDesc l)).filter _ = _
      rw [filter_score_orderedInsert]
      by_cases hx : x.1 = c
      · rw [if_pos hx, show List.insertionSort rawDesc l = sortByRawScore l from rfl,
          filter_sortByRawScore c l]
        simp [List.filter_cons, hx]
      · rw [if_neg hx, show List.insertionSort rawDesc l = sortByRawScore l from rfl,
          filter_sortByRawScore c l]
        simp [List.filter_cons, hx]

theorem mem_retrieved_mem_annotated (query : String) (sdocs bdocs : List Doc)
    (reranker : List (String × String) → List ℚ) :
    ∀ d ∈ (merge_and_rerank_node query sdocs bdocs reranker).retrieved_documents,
      d ∈ (merge_and_rerank_node query sdocs bdocs reranker).annotated_all := by
  intro d hd
  by_cases hne : sdocs ++ bdocs = []
  · simp [merge_and_rerank_node, hne] at hd
  · rw [merge_of_ne query sdocs bdocs reranker hne] at hd ⊢
    have h1 : d ∈ (sortByRawScore (mergePairs query sdocs bdocs reranker)).map Prod.snd :=
      List.take_subset NR_FINAL_DOCS _ hd
    rcases List.mem_map.mp h1 with ⟨p, hp, rfl⟩
    have h2 : p ∈ mergePairs query sdocs bdocs reranker :=
      (List.mem_insertionSort rawDesc).mp hp
    exact (List.of_mem_zip h2).2

theorem mergePairs_length (query : String) (sdocs bdocs : List Doc)
    (reranker : List (String × String) → List ℚ)
    (hlen : (mergeScores query sdocs bdocs reranker).length = (sdocs ++ bdocs).length) :
    (mergePairs query sdocs bdocs reranker).length = sdocs.length + bdocs.length := by
  simp only [mergePairs, List.length_zip, annotateDocs_length, normalizedScores_length,
    hlen, List.length_append]
  omega

theorem merge_retrieved_length (query : String) (sdocs bdocs : List Doc)
    (reranker : List (String × String) → List ℚ)
    (hlen : (mergeScores query sdocs bdocs reranker).length = (sdocs ++ bdocs).length) :
    (merge_and_rerank_node query sdocs bdocs reranker).retrieved_documents.length =
      min NR_FINAL_DOCS (sdocs.length + bdocs.length) := by
  by_cases hne : sdocs ++ bdocs = []
  · rcases List.append_eq_nil.mp hne with ⟨h1, h2⟩
    subst h1
    subst h2
    simp [merge_and_rerank_node, NR_FINAL_DOCS]
  · rw [merge_of_ne query sdocs bdocs reranker hne]
    simp only [List.length_take, List.length_map, sortByRawScore,
      List.length_insertionSort, mergePairs_length query sdocs bdocs reranker hlen]

theorem merge_annotated_length (query : String) (sdocs bdocs : List Doc)
    (reranker : List (String × String) → List ℚ) (hne : sdocs ++ bdocs ≠ [])
    (hlen : (mergeScores query sdocs bdocs reranker).length = (sdocs ++ bdocs).length) :
    (merge_and_rerank_node query sdocs bdocs reranker).annotated_all.length =
      sdocs.length + bdocs.length := by
  rw [merge_of_ne query sdocs bdocs reranker hne]
  simp only [annotateDocs_length, normalizedScores_length, hlen, List.length_append]
  omega

theorem annotateDocs_map_eraseCE (docs : List Doc) (ns : List ℚ)
    (h : docs.length ≤ ns.length) :
    (annotateDocs docs ns).map eraseCE = docs.map eraseCE := by
  simp only [annotateDocs, List.map_map]
  rw [show (eraseCE ∘ fun p : Doc × ℚ =>
        { p.1 with crossencoder_score := some p.2 }) = eraseCE ∘ Prod.fst from rfl,
    ← List.map_map, List.map_fst_zip docs ns h]

/-- C5: when both adapters return empty candidate sequences, the fusion step
returns an empty result immediately and the reranker is never invoked for
that query. -/
theorem claim_C5 (query : String) (reranker : List (String × String) → List ℚ) :
    merge_and_rerank_node query [] [] reranker =
      { retrieved_documents := [], annotated_all := [], reranker_calls := 0 } :=
  rfl

/-- C7: a query triaged OUT_OF_SCOPE yields the fixed out-of-scope message,
and neither the retrieval subgraph nor the reranker is invoked on that run. -/
theorem claim_C7 (query : String) (vr : ChromaQueryResult)
    (bs : Except String (List (String × List (String × String))))
    (reranker : List (String × String) → List ℚ)
    (answer_llm : String → String → String) :
    run_main_workflow query "OUT_OF_SCOPE" vr bs reranker answer_llm =
      .ok { answer := out_of_scope_answer
            retrieval_invoked := false
            reranker_calls := 0 } := by
  simp [run_main_workflow, triage_node, routeAfterTriage]

/-- C10: the post-triage branch matches the classifier's label exactly against
OUT_OF_SCOPE and DATA_QUESTION, the label is stored uncoerced, and any other
label selects neither branch (the run fails rather than defaulting to the
out-of-scope branch). -/
theorem claim_C10 (label : String) (h1 : label ≠ "OUT_OF_SCOPE")
    (h2 : label ≠ "DATA_QUESTION") :
    (∀ (s : String) (st : MainState), (triage_node s st).query_type = some s) ∧
    routeAfterTriage label = none ∧
    ∀ (query : String) (vr : ChromaQueryResult)
      (bs : Except String (List (String × List (String × String))))
      (reranker : List (String × String) → List ℚ)
      (answer_llm : String → String → String),
      run_main_workflow query label vr bs reranker answer_llm =
        .error ("unrecognized query_type: " ++ label) := by
  refine ⟨fun s st => rfl, ?_, ?_⟩
  · simp [routeAfterTriage, h1, h2]
  · intro query vr bs reranker answer_llm
    simp [run_main_workflow, triage_node, routeAfterTriage, h1, h2]

/-- C10 witness: the unrecognized label MAYBE selects neither branch. -/
theorem claim_C10_witness :
    ("MAYBE" ≠ "OUT_OF_SCOPE" ∧ "MAYBE" ≠ "DATA_QUESTION") ∧
    ((∀ (s : String) (st : MainState), (triage_node s st).query_type = some s) ∧
    routeAfterTriage "MAYBE" = none ∧
    ∀ (query : String) (vr : ChromaQueryResult)
      (bs : Except String (List (String × List (String × String))))
      (reranker : List (String × String) → List ℚ)
      (answer_llm : String → String → String),
      run_main_workflow query "MAYBE" vr bs reranker answer_llm =
        .error ("unrecognized query_type: " ++ "MAYBE")) :=
  ⟨⟨by decide, by decide⟩, claim_C10 "MAYBE" (by decide) (by decide)⟩

/-- C3: an internal error in the lexical search yields the empty candidate
list instead of propagating, and the fusion step then produces its result
solely from the vector candidates — the run is not aborted. -/
theorem claim_C3 (e query : String) (sdocs : List Doc)
    (reranker : List (String × String) → List ℚ) :
    bm25_search_node (.error e) = [] ∧
    merge_and_rerank_node query sdocs (bm25_search_node (.error e)) reranker =
      merge_and_rerank_node query sdocs [] reranker ∧
    ∀ d ∈ (merge_and_rerank_node query sdocs (bm25_search_node (.error e))
        reranker).retrieved_documents,
      eraseCE d ∈ sdocs.map eraseCE := by
  refine ⟨rfl, rfl, ?_⟩
  intro d hd
  have hd2 : d ∈ (merge_and_rerank_node query sdocs [] reranker).annotated_all :=
    mem_retrieved_mem_annotated query sdocs [] reranker d hd
  by_cases hne : sdocs ++ ([] : List Doc) = []
  · simp [merge_and_rerank_node, hne] at hd2
  · rw [merge_of_ne query sdocs [] reranker hne] at hd2
    rcases mem_annotateDocs _ _ _ hd2 with ⟨x, hx, q, _, rfl⟩
    rw [List.append_nil] at hx
    have hce : eraseCE { x with crossencoder_score := some q } = eraseCE x := rfl
    rw [hce]
    exact List.mem_map_of_mem eraseCE hx

/-- C8: the lexical adapter assigns the result at 0-indexed rank i out of m
returned results the score 1 - i / m, where m is the result-set size; the
top-ranked result scores exactly 1. -/
theorem claim_C8 (results : List (String × List (String × String)))
    (hne : results ≠ []) :
    bm25_search_node (.ok results) = bm25_scoring results ∧
    (bm25_scoring results).length = results.length ∧
    (∀ i, i < results.length →
      ((bm25_scoring results)[i]?).map Doc.bm25_score =
        some (1 - (i : ℚ) / results.length)) ∧
    ((bm25_scoring results).head?).map Doc.bm25_score = some 1 := by
  refine ⟨rfl, by simp [bm25_scoring], ?_, ?_⟩
  · intro i hi
    have hlen : (bm25_scoring results).length = results.length := by
      simp [bm25_scoring]
    rw [List.getElem?_eq_getElem (by rw [hlen]; exact hi)]
    simp [bm25_scoring]
  · rcases results with _ | ⟨r, rs⟩
    · exact absurd rfl hne
    · simp [bm25_scoring, List.enum]

/-- C8 witness: the rank-decay scores on a concrete two-element result list. -/
theorem claim_C8_witness :
    ([("a", [("source", "r")]), ("b", [])] :
        List (String × List (String × String))) ≠ [] ∧
    (bm25_search_node (.ok [("a", [("source", "r")]), ("b", [])]) =
      bm25_scoring [("a", [("source", "r")]), ("b", [])] ∧
    (bm25_scoring [("a", [("source", "r")]), ("b", [])]).length =
      ([("a", [("source", "r")]), ("b", [])] :
        List (String × List (String × String))).length ∧
    (∀ i, i < ([("a", [("source", "r")]), ("b", [])] :
        List (String × List (String × String))).length →
      ((bm25_scoring [("a", [("source", "r")]), ("b", [])])[i]?).map Doc.bm25_score =
        some (1 - (i : ℚ) / ([("a", [("source", "r")]), ("b", [])] :
          List (String × List (String × String))).length)) ∧
    ((bm25_scoring [("a", [("source", "r")]), ("b", [])]).head?).map Doc.bm25_score =
      some 1) :=
  ⟨by decide, claim_C8 [("a", [("source", "r")]), ("b", [])] (by decide)⟩

/-- C4: for every pair of candidate lists whose reranker output is
index-aligned, the fusion result length is min(K, total candidates) with
K = NR_FINAL_DOCS = 5: it never exceeds K nor the candidates available. -/
theorem claim_C4 (query : String) (sdocs bdocs : List Doc)
    (reranker : List (String × String) → List ℚ)
    (hlen : (mergeScores query sdocs bdocs reranker).length = (sdocs ++ bdocs).length) :
    (merge_and_rerank_node query sdocs bdocs reranker).retrieved_documents.length =
      min NR_FINAL_DOCS (sdocs.length + bdocs.length) :=
  merge_retrieved_length query sdocs bdocs reranker hlen

/-- C4 witness: two candidates yield min 5 2 = 2 final documents. -/
theorem claim_C4_witness :
    (mergeScores "q" [docA] [docB] rampReranker).length = ([docA] ++ [docB]).length ∧
    (merge_and_rerank_node "q" [docA] [docB] rampReranker).retrieved_documents.length =
      min NR_FINAL_DOCS (([docA] : List Doc).length + ([docB] : List Doc).length) :=
  ⟨by decide, claim_C4 "q" [docA] [docB] rampReranker (by decide)⟩

/-- C6: vector-adapter candidates carry method tag "vector" with lexical
(bm25) score zeroed, lexical-adapter candidates carry the lexical tag "bm25"
with vector score zeroed, and a chunk returned by both adapters occupies two
distinct entries of the concatenated batch, each with only its own score. -/
theorem claim_C6 (results : ChromaQueryResult)
    (bresults : List (String × List (String × String))) :
    (∀ d ∈ semantic_search_node results,
      d.retrieval_method = "vector" ∧ d.bm25_score = 0) ∧
    (∀ d ∈ bm25_search_node (.ok bresults),
      d.retrieval_method = "bm25" ∧ d.vector_score = 0) ∧
    (semantic_search_node results ++ bm25_search_node (.ok bresults)).length =
      (semantic_search_node results).length +
        (bm25_search_node (.ok bresults)).length ∧
    ∀ d1 ∈ semantic_search_node results, ∀ d2 ∈ bm25_search_node (.ok bresults),
      d1 ∈ semantic_search_node results ++ bm25_search_node (.ok bresults) ∧
      d2 ∈ semantic_search_node results ++ bm25_search_node (.ok bresults) ∧
      d1 ≠ d2 := by
  refine ⟨?_, ?_, List.length_append _ _, ?_⟩
  · intro d hd
    simp only [semantic_search_node] at hd
    rcases List.mem_map.mp hd with ⟨p, _, rfl⟩
    exact ⟨rfl, rfl⟩
  · intro d hd
    simp only [bm25_search_node, bm25_scoring] at hd
    rcases List.mem_map.mp hd with ⟨p, _, rfl⟩
    exact ⟨rfl, rfl⟩
  · intro d1 h1 d2 h2
    refine ⟨List.mem_append_left _ h1, List.mem_append_right _ h2, ?_⟩
    intro he
    have hm1 : d1.retrieval_method = "vector" := by
      simp only [semantic_search_node] at h1
      rcases List.mem_map.mp h1 with ⟨p, _, rfl⟩
      rfl
    have hm2 : d2.retrieval_method = "bm25" := by
      simp only [bm25_search_node, bm25_scoring] at h2
      rcases List.mem_map.mp h2 with ⟨p, _, rfl⟩
      rfl
    rw [he, hm2] at hm1
    exact absurd hm1 (by decide)

/-- C2: the fusion step orders candidates by raw reranker score, not the
normalized one: the sorted sequence is non-increasing in raw score, is a
permutation of the scored batch, and the sort is stable (candidates with
equal raw scores keep their relative order from the concatenated input). -/
theorem claim_C2 (query : String) (sdocs bdocs : List Doc)
    (reranker : List (String × String) → List ℚ) (hne : sdocs ++ bdocs ≠ []) :
    (merge_and_rerank_node query sdocs bdocs reranker).retrieved_documents =
      ((sortByRawScore (mergePairs query sdocs bdocs reranker)).map Prod.snd).take
        NR_FINAL_DOCS ∧
    (sortByRawScore (mergePairs query sdocs bdocs reranker)).Sorted rawDesc ∧
    (sortByRawScore (mergePairs query sdocs bdocs reranker)).Perm
      (mergePairs query sdocs bdocs reranker) ∧
    ∀ c : ℚ,
      (sortByRawScore (mergePairs query sdocs bdocs reranker)).filter
          (fun p => decide (p.1 = c)) =
        (mergePairs query sdocs bdocs reranker).filter (fun p => decide (p.1 = c)) := by
  refine ⟨?_, List.sorted_insertionSort rawDesc _, List.perm_insertionSort rawDesc _,
    fun c => filter_sortByRawScore c _⟩
  rw [merge_of_ne query sdocs bdocs reranker hne]

/-- C2 witness: the sorting contract evaluated on a concrete two-candidate
batch. -/
theorem claim_C2_witness :
    ([docA] ++ [docB] ≠ []) ∧
    ((merge_and_rerank_node "q" [docA] [docB] rampReranker).retrieved_documents =
      ((sortByRawScore (mergePairs "q" [docA] [docB] rampReranker)).map Prod.snd).take
        NR_FINAL_DOCS ∧
    (sortByRawScore (mergePairs "q" [docA] [docB] rampReranker)).Sorted rawDesc ∧
    (sortByRawScore (mergePairs "q" [docA] [docB] rampReranker)).Perm
      (mergePairs "q" [docA] [docB] rampReranker) ∧
    ∀ c : ℚ,
      (sortByRawScore (mergePairs "q" [docA] [docB] rampReranker)).filter
          (fun p => decide (p.1 = c)) =
        (mergePairs "q" [docA] [docB] rampReranker).filter
          (fun p => decide (p.1 = c))) :=
  ⟨by decide, claim_C2 "q" [docA] [docB] rampReranker (by decide)⟩

theorem mem_zip_annotate_map (g : ℚ → ℚ) :
    ∀ (scores : List ℚ) (docs : List Doc),
      ∀ p ∈ scores.zip (annotateDocs docs (scores.map g)),
        p.2.crossencoder_score = some (g p.1)
  | [], _, p, hp => by simp at hp
  | _ :: _, [], p, hp => by simp [annotateDocs] at hp
  | s :: ss, d :: ds, p, hp => by
      simp only [annotateDocs, List.map_cons, List.zip_cons_cons] at hp
      rcases List.mem_cons.mp hp with rfl | h
      · rfl
      · exact mem_zip_annotate_map g ss ds p h

/-- C9: the fusion step writes the normalized score into the metadata of
every candidate of the full concatenated batch — the mutated batch has one
annotated entry per input candidate, agreeing with the inputs on everything
but the annotation — including the candidates later cut by the top-K
truncation, of which the returned documents are a subset. -/
theorem claim_C9 (query : String) (sdocs bdocs : List Doc)
    (reranker : List (String × String) → List ℚ) (hne : sdocs ++ bdocs ≠ [])
    (hlen : (mergeScores query sdocs bdocs reranker).length = (sdocs ++ bdocs).length) :
    (merge_and_rerank_node query sdocs bdocs reranker).annotated_all =
      annotateDocs (sdocs ++ bdocs)
        (normalizedScores (mergeScores query sdocs bdocs reranker)) ∧
    (merge_and_rerank_node query sdocs bdocs reranker).annotated_all.length =
      sdocs.length + bdocs.length ∧
    (merge_and_rerank_node query sdocs bdocs reranker).annotated_all.map eraseCE =
      (sdocs ++ bdocs).map eraseCE ∧
    (∀ d ∈ (merge_and_rerank_node query sdocs bdocs reranker).annotated_all,
      ∃ q, d.crossencoder_score = some q) ∧
    (merge_and_rerank_node query sdocs bdocs reranker).retrieved_documents.length ≤
      (merge_and_rerank_node query sdocs bdocs reranker).annotated_all.length ∧
    ∀ d ∈ (merge_and_rerank_node query sdocs bdocs reranker).retrieved_documents,
      d ∈ (merge_and_rerank_node query sdocs bdocs reranker).annotated_all := by
  refine ⟨?_, merge_annotated_length query sdocs bdocs reranker hne hlen, ?_, ?_, ?_,
    mem_retrieved_mem_annotated query sdocs bdocs reranker⟩
  · rw [merge_of_ne query sdocs bdocs reranker hne]
  · rw [merge_of_ne query sdocs bdocs reranker hne]
    exact annotateDocs_map_eraseCE _ _
      (by rw [normalizedScores_length, hlen, List.length_append])
  · intro d hd
    rw [merge_of_ne query sdocs bdocs reranker hne] at hd
    rcases mem_annotateDocs _ _ _ hd with ⟨x, _, q, _, rfl⟩
    exact ⟨q, rfl⟩
  · rw [merge_retrieved_length query sdocs bdocs reranker hlen,
      merge_annotated_length query sdocs bdocs reranker hne hlen]
    exact min_le_right _ _

/-- C9 witness: the full two-candidate batch is annotated while only the
returned documents are truncated. -/
theorem claim_C9_witness :
    (([docA] ++ [docB] ≠ []) ∧
      (mergeScores "q" [docA] [docB] rampReranker).length =
        ([docA] ++ [docB]).length) ∧
    ((merge_and_rerank_node "q" [docA] [docB] rampReranker).annotated_all =
      annotateDocs ([docA] ++ [docB])
        (normalizedScores (mergeScores "q" [docA] [docB] rampReranker)) ∧
    (merge_and_rerank_node "q" [docA] [docB] rampReranker).annotated_all.length =
      ([docA] : List Doc).length + ([docB] : List Doc).length ∧
    (merge_and_rerank_node "q" [docA] [docB] rampReranker).annotated_all.map eraseCE =
      ([docA] ++ [docB]).map eraseCE ∧
    (∀ d ∈ (merge_and_rerank_node "q" [docA] [docB] rampReranker).annotated_all,
      ∃ q, d.crossencoder_score = some q) ∧
    (merge_and_rerank_node "q" [docA] [docB] rampReranker).retrieved_documents.length ≤
      (merge_and_rerank_node "q" [docA] [docB] rampReranker).annotated_all.length ∧
    ∀ d ∈ (merge_and_rerank_node "q" [docA] [docB] rampReranker).retrieved_documents,
      d ∈ (merge_and_rerank_node "q" [docA] [docB] rampReranker).annotated_all) :=
  ⟨⟨by decide, by decide⟩,
    claim_C9 "q" [docA] [docB] rampReranker (by decide) (by decide)⟩

/-- C1 counterexample: with raw scores 0 and 1e-6 the batch is not all-equal
(the maximum is 1e-6, held by the second candidate), yet that maximum-scored
candidate's normalized score is 1/2, which is not within epsilon = 1e-6 of
1.0. -/
theorem claim_C1_counterexample :
    mergeScores "q" [docA] [docB] tinySpreadReranker = [0, 1 / 1000000] ∧
    npMin [(0 : ℚ), 1 / 1000000] = 0 ∧
    npMax [(0 : ℚ), 1 / 1000000] = 1 / 1000000 ∧
    (merge_and_rerank_node "q" [docA] [docB] tinySpreadReranker).annotated_all.map
        Doc.crossencoder_score = [some 0, some (1 / 2)] ∧
    ¬ (1 - (1 : ℚ) / 2 ≤ eps) := by
  have hmin : npMin [(0 : ℚ), 1 / 1000000] = 0 := by
    show min (0 : ℚ) (1 / 1000000) = 0
    rw [min_eq_left]
    norm_num
  have hmax : npMax [(0 : ℚ), 1 / 1000000] = 1 / 1000000 := by
    show max (0 : ℚ) (1 / 1000000) = 1 / 1000000
    rw [max_eq_right]
    norm_num
  have hns : normalizedScores [(0 : ℚ), 1 / 1000000] = [0, 1 / 2] := by
    unfold normalizedScores
    rw [if_pos (by rw [hmin, hmax]; norm_num)]
    rw [hmin, hmax]
    simp only [List.map_cons, List.map_nil, eps]
    norm_num
  refine ⟨rfl, hmin, hmax, ?_, by norm_num [eps]⟩
  rw [merge_of_ne "q" [docA] [docB] tinySpreadReranker (by simp),
    show mergeScores "q" [docA] [docB] tinySpreadReranker = [0, 1 / 1000000] from rfl,
    hns]
  rfl

/-- C1 (amended): for every non-empty batch, every candidate's normalized
rerank score lies in [0,1]; when all raw scores are equal every candidate
receives the uniform value 0.5; otherwise the candidate holding the maximum
raw score receives exactly (max - min) / (max - min + 1e-6), which is within
1e-6 of 1.0 when the raw score spread is at least 1 but not in general. -/
theorem claim_C1 (query : String) (sdocs bdocs : List Doc)
    (reranker : List (String × String) → List ℚ) (hne : sdocs ++ bdocs ≠ []) :
    (∀ d ∈ (merge_and_rerank_node query sdocs bdocs reranker).annotated_all,
      ∃ q, d.crossencoder_score = some q ∧ 0 ≤ q ∧ q ≤ 1) ∧
    (npMin (mergeScores query sdocs bdocs reranker) <
        npMax (mergeScores query sdocs bdocs reranker) →
      ∀ p ∈ (mergeScores query sdocs bdocs reranker).zip
          (merge_and_rerank_node query sdocs bdocs reranker).annotated_all,
        p.1 = npMax (mergeScores query sdocs bdocs reranker) →
          p.2.crossencoder_score =
            some ((npMax (mergeScores query sdocs bdocs reranker) -
                npMin (mergeScores query sdocs bdocs reranker)) /
              (npMax (mergeScores query sdocs bdocs reranker) -
                npMin (mergeScores query sdocs bdocs reranker) + eps))) ∧
    (1 ≤ npMax (mergeScores query sdocs bdocs reranker) -
        npMin (mergeScores query sdocs bdocs reranker) →
      1 - (npMax (mergeScores query sdocs bdocs reranker) -
          npMin (mergeScores query sdocs bdocs reranker)) /
        (npMax (mergeScores query sdocs bdocs reranker) -
          npMin (mergeScores query sdocs bdocs reranker) + eps) ≤ eps) ∧
    ((∀ s ∈ mergeScores query sdocs bdocs reranker,
        ∀ t ∈ mergeScores query sdocs bdocs reranker, s = t) →
      ∀ d ∈ (merge_and_rerank_node query sdocs bdocs reranker).annotated_all,
        d.crossencoder_score = some (1 / 2)) := by
  have hm := merge_of_ne query sdocs bdocs reranker hne
  refine ⟨?_, ?_, ?_, ?_⟩
  · intro d hd
    rw [hm] at hd
    rcases mem_annotateDocs _ _ _ hd with ⟨x, _, q, hq, rfl⟩
    rcases normalizedScores_bounds _ q hq with ⟨h0, h1⟩
    exact ⟨q, rfl, h0, h1⟩
  · intro hlt p hp hmax
    rw [hm] at hp
    have hns : normalizedScores (mergeScores query sdocs bdocs reranker) =
        (mergeScores query sdocs bdocs reranker).map
          (fun s => (s - npMin (mergeScores query sdocs bdocs reranker)) /
            (npMax (mergeScores query sdocs bdocs reranker) -
              npMin (mergeScores query sdocs bdocs reranker) + eps)) := by
      unfold normalizedScores
      rw [if_pos hlt]
    rw [hns] at hp
    rw [mem_zip_annotate_map _ _ _ p hp, hmax]
  · intro hge
    have hd : (0 : ℚ) < npMax (mergeScores query sdocs bdocs reranker) -
        npMin (mergeScores query sdocs bdocs reranker) + eps := by
      have := eps_pos
      linarith
    have key : 1 - (npMax (mergeScores query sdocs bdocs reranker) -
          npMin (mergeScores query sdocs bdocs reranker)) /
        (npMax (mergeScores query sdocs bdocs reranker) -
          npMin (mergeScores query sdocs bdocs reranker) + eps) =
        eps / (npMax (mergeScores query sdocs bdocs reranker) -
          npMin (mergeScores query sdocs bdocs reranker) + eps) := by
      field_simp
    rw [key, div_le_iff₀ hd]
    nlinarith [eps_pos]
  · intro hall d hd
    rw [hm, normalizedScores_of_all_eq _ hall] at hd
    rcases mem_annotateDocs _ _ _ hd with ⟨x, _, q, hq, rfl⟩
    rcases List.mem_map.mp hq with ⟨s, _, rfl⟩
    rfl

/-- C1 witness: the amended normalization contract evaluated on a concrete
two-candidate batch with raw scores 0 and 1. -/
theorem claim_C1_witness :
    ([docA] ++ [docB] ≠ []) ∧
    ((∀ d ∈ (merge_and_rerank_node "q" [docA] [docB] rampReranker).annotated_all,
      ∃ q, d.crossencoder_score = some q ∧ 0 ≤ q ∧ q ≤ 1) ∧
    (npMin (mergeScores "q" [docA] [docB] rampReranker) <
        npMax (mergeScores "q" [docA] [docB] rampReranker) →
      ∀ p ∈ (mergeScores "q" [docA] [docB] rampReranker).zip
          (merge_and_rerank_node "q" [docA] [docB] rampReranker).annotated_all,
        p.1 = npMax (mergeScores "q" [docA] [docB] rampReranker) →
          p.2.crossencoder_score =
            some ((npMax (mergeScores "q" [docA] [docB] rampReranker) -
                npMin (mergeScores "q" [docA] [docB] rampReranker)) /
              (npMax (mergeScores "q" [docA] [docB] rampReranker) -
                npMin (mergeScores "q" [docA] [docB] rampReranker) + eps))) ∧
    (1 ≤ npMax (mergeScores "q" [docA] [docB] rampReranker) -
        npMin (mergeScores "q" [docA] [docB] rampReranker) →
      1 - (npMax (mergeScores "q" [docA] [docB] rampReranker) -
          npMin (mergeScores "q" [docA] [docB] rampReranker)) /
        (npMax (mergeScores "q" [docA] [docB] rampReranker) -
          npMin (mergeScores "q" [docA] [docB] rampReranker) + eps) ≤ eps) ∧
    ((∀ s ∈ mergeScores "q" [docA] [docB] rampReranker,
        ∀ t ∈ mergeScores "q" [docA] [docB] rampReranker, s = t) →
      ∀ d ∈ (merge_and_rerank_node "q" [docA] [docB] rampReranker).annotated_all,
        d.crossencoder_score = some (1 / 2))) :=
  ⟨by decide, claim_C1 "q" [docA] [docB] rampReranker (by decide)⟩

end RagWpp
